import Mathlib

/-!
Verification of the `vault_program` Anchor program in
`src/vault-workshop/rust/vault.rs` against its natural-language
specification.

The program has three instructions — `initialize`, `deposit`, `withdraw` —
operating on three program-derived addresses per owner:

  state address = derive(["state", owner])        (holds the `Vault` record)
  auth  address = derive(["auth",  state address]) (keyless signing identity)
  vault address = derive(["vault", auth address])  (holds the escrowed value)

We embed the program shallowly: addresses are byte lists, the external
address-derivation collaborator is modelled as an injective deterministic
function, the external ledger is a balance map plus a record map, and each
instruction is a total Lean function from a chain state and the
caller-supplied accounts to `Except Err Chain`, translating the Anchor
account constraints of the corresponding `#[derive(Accounts)]` context and
then the instruction body.
-/

namespace VaultWorkshop

/-- Addresses (public keys) are byte strings, as in the source where every
seed enters derivation through `.as_ref()` as raw bytes. -/
abbrev Pubkey := List Nat

/-- The byte string `b"state"` used as the first seed of the state PDA. -/
def stateTag : List Nat := [115, 116, 97, 116, 101]

/-- The byte string `b"auth"` used as the first seed of the auth PDA. -/
def authTag : List Nat := [97, 117, 116, 104]

/-- The byte string `b"vault"` used as the first seed of the vault PDA. -/
def vaultTag : List Nat := [118, 97, 117, 108, 116]

/-- Modelled from the spec: the external AddressDerivation collaborator
(Solana `create_program_address`, not part of this repository) maps an
ordered seed list to an address deterministically, and distinct seed
chains yield distinct addresses (the spec treats the hash as
collision-free). We realise this with a length-prefixed injective
encoding of the seed list; the leading `1` separates program-derived
addresses from ordinary keypair addresses (`keyAddr`), modelling the
off-curve guarantee. -/
def encodeSeeds : List (List Nat) → List Nat
  | [] => []
  | s :: rest => s.length :: (s ++ encodeSeeds rest)

/-- Modelled from the spec: the non-searching derivation variant; the bump
is passed by the caller as the final one-byte seed, exactly as in
`create_program_address(seeds ++ [[bump]])`. -/
def createProgramAddress (seeds : List (List Nat)) : Pubkey :=
  1 :: encodeSeeds seeds

/-- An ordinary keypair-controlled address (e.g. the owner's wallet),
disjoint from every program-derived address by its leading `0`. -/
def keyAddr (n : Nat) : Pubkey := [0, n]

/-- Modelled from the spec: the canonical bump found by the searching
variant. Solana searches downward from 255 for the first off-curve bump;
in the model every bump is valid, so the search returns 255. -/
def canonicalBump : Nat := 255

/-- Modelled from the spec: the searching derivation variant
(`find_program_address`): returns the derived address together with the
canonical bump. Deterministic by construction. -/
def findProgramAddress (seeds : List (List Nat)) : Pubkey × Nat :=
  (createProgramAddress (seeds ++ [[canonicalBump]]), canonicalBump)

/-- The persisted per-owner record, from `#[account] pub struct Vault`:
the owner key plus the three bumps recorded at creation. There is no
balance field — the held amount lives entirely in the ledger. -/
structure Vault where
  owner : Pubkey
  state_bump : Nat
  auth_bump : Nat
  vault_bump : Nat
deriving Repr, DecidableEq

/-- Modelled from the spec: the external ledger — a native-value balance
for every address and the record storage keyed by the derived state
address. -/
structure Chain where
  lamports : Pubkey → Nat
  records : Pubkey → Option Vault

/-- Error taxonomy from the spec (§7), to which the ledger- and
Anchor-level failures of the source are mapped: constraint/seed
mismatches are `InvalidAddress`, a missing record is `NotFound`, a
missing or invalid signature is `Unauthorized`. -/
inductive Err where
  | AlreadyExists
  | NotFound
  | InvalidAddress
  | InsufficientFunds
  | Unauthorized
  | InvalidAmount
deriving Repr, DecidableEq

/-- Point update of a balance map. -/
def setBal (f : Pubkey → Nat) (k : Pubkey) (v : Nat) : Pubkey → Nat :=
  fun a => if a = k then v else f a

/-- Point update of the record storage. -/
def setRec (f : Pubkey → Option Vault) (k : Pubkey) (v : Option Vault) :
    Pubkey → Option Vault :=
  fun a => if a = k then v else f a

/-- Modelled from the spec: the external value-transfer primitive
(`system_program::transfer`). It requires the source to be an authorised
signer (direct signer or derived-authority seed chain) and a sufficient
source balance; on success it atomically moves `amount`. -/
def sysTransfer (c : Chain) (src dst : Pubkey) (amount : Nat)
    (srcSigned : Bool) : Except Err Chain :=
  if ¬ srcSigned then .error .Unauthorized
  else if c.lamports src < amount then .error .InsufficientFunds
  else
    let f1 := setBal c.lamports src (c.lamports src - amount)
    .ok { c with lamports := setBal f1 dst (f1 dst + amount) }

/-- Modelled from the spec: an error aborts the whole operation with no
partial side effect (§5, §7), so the chain after a failed call is the
chain before it. -/
def chainAfter (c : Chain) (r : Except Err Chain) : Chain :=
  match r with
  | .ok c' => c'
  | .error _ => c

/-- Whether an instruction result is a success. -/
def exceptOk (r : Except Err Chain) : Bool :=
  match r with
  | .ok _ => true
  | .error _ => false

/-- Caller-supplied accounts of `InitializeContext`, in source field
order: `state`, `vault`, `owner`, `auth` (the system program is
implicit). -/
structure InitializeContext where
  state : Pubkey
  vault : Pubkey
  owner : Pubkey
  auth : Pubkey

/-- Caller-supplied accounts of `DepositContext`, in source field order:
`owner`, `auth`, `state`, `vault`. -/
structure DepositContext where
  owner : Pubkey
  auth : Pubkey
  state : Pubkey
  vault : Pubkey

/-- Caller-supplied accounts of `WithdrawContext`, in source field order:
`state`, `vault`, `owner`, `auth`. -/
structure WithdrawContext where
  state : Pubkey
  vault : Pubkey
  owner : Pubkey
  auth : Pubkey

/-- The source instruction named after the spec operation create(owner). Anchor checks of `InitializeContext`:
`owner` signs; `state` is `init` at seeds `["state", owner]` with the
canonical bump (creation fails `AlreadyExists` on an occupied address);
`auth` at seeds `["auth", state]` and `vault` at seeds `["vault", auth]`,
both with canonical bumps. The body stores the owner and the three found
bumps in the new record. Rent/funding mechanics of account creation are
out of the spec's scope and not modelled. -/
def create (c : Chain) (ctx : InitializeContext) (ownerSigned : Bool) :
    Except Err Chain :=
  if ¬ ownerSigned then .error .Unauthorized
  else if ctx.state ≠ (findProgramAddress [stateTag, ctx.owner]).1 then
    .error .InvalidAddress
  else if (c.records ctx.state).isSome then .error .AlreadyExists
  else if ctx.auth ≠ (findProgramAddress [authTag, ctx.state]).1 then
    .error .InvalidAddress
  else if ctx.vault ≠ (findProgramAddress [vaultTag, ctx.auth]).1 then
    .error .InvalidAddress
  else
    .ok { c with
            records := setRec c.records ctx.state
              (some ⟨ctx.owner, (findProgramAddress [stateTag, ctx.owner]).2,
                     (findProgramAddress [authTag, ctx.state]).2,
                     (findProgramAddress [vaultTag, ctx.auth]).2⟩) }

/-- The `deposit` instruction. Anchor checks of `DepositContext`: the
record at `state` must exist (`Account<Vault>` deserialization, else
`NotFound`); `owner` signs; `state` re-derives from
`["state", owner]` with the stored `state_bump`; `auth` from
`["auth", state]` with the stored `auth_bump`; `vault` from
`["vault", auth]` with the stored `vault_bump`. The body transfers
`amount` from `owner` to `vault`, signed by the owner. -/
def deposit (c : Chain) (ctx : DepositContext) (ownerSigned : Bool)
    (amount : Nat) : Except Err Chain :=
  match c.records ctx.state with
  | none => .error .NotFound
  | some r =>
    if ¬ ownerSigned then .error .Unauthorized
    else if ctx.state ≠ createProgramAddress [stateTag, ctx.owner, [r.state_bump]] then
      .error .InvalidAddress
    else if ctx.auth ≠ createProgramAddress [authTag, ctx.state, [r.auth_bump]] then
      .error .InvalidAddress
    else if ctx.vault ≠ createProgramAddress [vaultTag, ctx.auth, [r.vault_bump]] then
      .error .InvalidAddress
    else sysTransfer c ctx.owner ctx.vault amount true

/-- The `withdraw` instruction. Anchor checks of `WithdrawContext` are
the same as for deposit. The body transfers `amount` from `vault` to
`owner` under `CpiContext::new_with_signer` with the seed group
`[b"vault", state.key().as_ref(), &[state.auth_bump]]` taken verbatim
from the source: the runtime grants signer status to the address those
seeds derive, so the transfer is authorised exactly when that derived
address is the vault address. -/
def withdraw (c : Chain) (ctx : WithdrawContext) (ownerSigned : Bool)
    (amount : Nat) : Except Err Chain :=
  match c.records ctx.state with
  | none => .error .NotFound
  | some r =>
    if ¬ ownerSigned then .error .Unauthorized
    else if ctx.state ≠ createProgramAddress [stateTag, ctx.owner, [r.state_bump]] then
      .error .InvalidAddress
    else if ctx.auth ≠ createProgramAddress [authTag, ctx.state, [r.auth_bump]] then
      .error .InvalidAddress
    else if ctx.vault ≠ createProgramAddress [vaultTag, ctx.auth, [r.vault_bump]] then
      .error .InvalidAddress
    else
      sysTransfer c ctx.vault ctx.owner amount
        (decide (createProgramAddress [vaultTag, ctx.state, [r.auth_bump]] = ctx.vault))

/-- A concrete owner wallet, standing in for Alice in the spec scenarios. -/
def alice : Pubkey := keyAddr 7

/-- The canonical state address of an owner. -/
def stateAddr (o : Pubkey) : Pubkey := (findProgramAddress [stateTag, o]).1

/-- The canonical auth address of an owner. -/
def authAddr (o : Pubkey) : Pubkey := (findProgramAddress [authTag, stateAddr o]).1

/-- The canonical vault address of an owner. -/
def vaultAddr (o : Pubkey) : Pubkey := (findProgramAddress [vaultTag, authAddr o]).1

/-- The honest `InitializeContext` for an owner: every supplied account is
the canonically derived one. -/
def initCtxOf (o : Pubkey) : InitializeContext := ⟨stateAddr o, vaultAddr o, o, authAddr o⟩

/-- The honest `DepositContext` for an owner. -/
def depCtxOf (o : Pubkey) : DepositContext := ⟨o, authAddr o, stateAddr o, vaultAddr o⟩

/-- The honest `WithdrawContext` for an owner. -/
def wdCtxOf (o : Pubkey) : WithdrawContext := ⟨stateAddr o, vaultAddr o, o, authAddr o⟩

/-- A start chain: Alice holds 1000 units, nothing else exists. -/
def chain0 : Chain := ⟨fun a => if a = alice then 1000 else 0, fun _ => none⟩

/-- The chain after create(Alice). -/
def chain1 : Chain := chainAfter chain0 (create chain0 (initCtxOf alice) true)

/-- The chain after create(Alice) then deposit(Alice, 100). -/
def chain2 : Chain := chainAfter chain1 (deposit chain1 (depCtxOf alice) true 100)

/-- Two record-storage entries that agree on all three bump fields
(the owner field is allowed to differ). -/
def recBumpsEq : Option Vault → Option Vault → Prop
  | none, none => True
  | some r1, some r2 =>
      r1.state_bump = r2.state_bump ∧ r1.auth_bump = r2.auth_bump ∧
        r1.vault_bump = r2.vault_bump
  | _, _ => False

/-- Two instruction results that are observably the same for a client:
the same error, or both successes with identical balances everywhere. -/
def agreeE (x y : Except Err Chain) : Prop :=
  match x, y with
  | .error e1, .error e2 => e1 = e2
  | .ok a, .ok b => ∀ k, a.lamports k = b.lamports k
  | _, _ => False

theorem encodeSeeds_inj : ∀ (xs ys : List (List Nat)),
    encodeSeeds xs = encodeSeeds ys → xs = ys := by
  intro xs
  induction xs with
  | nil =>
    intro ys h
    cases ys with
    | nil => rfl
    | cons t ts => exact absurd h (by simp [encodeSeeds])
  | cons s ss ih =>
    intro ys h
    cases ys with
    | nil => exact absurd h (by simp [encodeSeeds])
    | cons t ts =>
      simp only [encodeSeeds, List.cons.injEq] at h
      rcases h with ⟨hlen, happ⟩
      rcases List.append_inj happ hlen with ⟨hst, hrest⟩
      rw [hst, ih ts hrest]

theorem createProgramAddress_inj (xs ys : List (List Nat))
    (h : createProgramAddress xs = createProgramAddress ys) : xs = ys := by
  unfold createProgramAddress at h
  injection h with h1 h2
  exact encodeSeeds_inj xs ys h2

/-- The heart of the withdraw bug: under the Anchor constraints of
`WithdrawContext`, the address derived from the source's signer seed
group `["vault", state, auth_bump]` can never be the vault address,
whose seeds are `["vault", auth, vault_bump]` — that would force
`state = auth`, which in turn forces the tags `"state"` and `"auth"` to
coincide. -/
theorem signer_seeds_mismatch (ctx : WithdrawContext) (r : Vault)
    (h1 : ctx.state = createProgramAddress [stateTag, ctx.owner, [r.state_bump]])
    (h2 : ctx.auth = createProgramAddress [authTag, ctx.state, [r.auth_bump]])
    (h3 : ctx.vault = createProgramAddress [vaultTag, ctx.auth, [r.vault_bump]]) :
    createProgramAddress [vaultTag, ctx.state, [r.auth_bump]] ≠ ctx.vault := by
  intro h4
  rw [h3] at h4
  have hlist := createProgramAddress_inj _ _ h4
  injection hlist with h5 h6
  injection h6 with hsa h7
  have hkey : createProgramAddress [stateTag, ctx.owner, [r.state_bump]]
      = createProgramAddress [authTag, ctx.state, [r.auth_bump]] :=
    (hsa.symm.trans h1).symm.trans h2
  have hl2 := createProgramAddress_inj _ _ hkey
  injection hl2 with htag _
  exact absurd htag (by decide)

theorem sysTransfer_records (c : Chain) (x y : Pubkey) (amt : Nat) (b : Bool)
    (a : Pubkey) :
    (chainAfter c (sysTransfer c x y amt b)).records a = c.records a := by
  unfold sysTransfer
  split
  · rfl
  · split
    · rfl
    · rfl

/-- What a successful create establishes: the canonical record sits at the
state address, all three supplied addresses were the canonically derived
ones, no balance moved, and no other record changed. -/
theorem create_ok_record (c : Chain) (ctx : InitializeContext) (s : Bool)
    (c' : Chain) (h : create c ctx s = .ok c') :
    c'.records ctx.state = some ⟨ctx.owner, canonicalBump, canonicalBump, canonicalBump⟩ ∧
    ctx.state = stateAddr ctx.owner ∧
    ctx.auth = authAddr ctx.owner ∧
    ctx.vault = vaultAddr ctx.owner ∧
    (∀ a, c'.lamports a = c.lamports a) ∧
    (∀ a, a ≠ ctx.state → c'.records a = c.records a) := by
  unfold create at h
  split at h
  case isTrue => exact absurd h (by simp)
  case isFalse hs =>
  split at h
  case isTrue => exact absurd h (by simp)
  case isFalse h1 =>
  split at h
  case isTrue => exact absurd h (by simp)
  case isFalse hex =>
  split at h
  case isTrue => exact absurd h (by simp)
  case isFalse h2 =>
  split at h
  case isTrue => exact absurd h (by simp)
  case isFalse h3 =>
  rw [not_not] at h1 h2 h3
  injection h with hc
  subst hc
  refine ⟨?_, h1, ?_, ?_, fun a => rfl, fun a ha => ?_⟩
  · simp [setRec, findProgramAddress, canonicalBump]
  · show ctx.auth =
      (findProgramAddress [authTag, (findProgramAddress [stateTag, ctx.owner]).1]).1
    rw [← h1]
    exact h2
  · show ctx.vault =
      (findProgramAddress [vaultTag,
        (findProgramAddress [authTag, (findProgramAddress [stateTag, ctx.owner]).1]).1]).1
    rw [← h1, ← h2]
    exact h3
  · simp [setRec, ha]

/-- C1: the spec claims that the signing proof `withdraw` constructs from
the seed chain `["vault", state_address, authority_bump]` matches
precisely the seed chain used when the vault address was derived
(`["vault", authority_address]` plus the stored `vault_bump`), so that a
correctly-addressed withdraw succeeds. The code violates this: under the
`WithdrawContext` constraints those two seed chains always differ
(`signer_seeds_mismatch`), so the proof the program supplies never
authorises the vault address and every `withdraw` call — with honest or
mutated accounts alike — returns an error. -/
theorem C1_withdraw_signer_chain_never_matches (c : Chain)
    (ctx : WithdrawContext) (s : Bool) (amount : Nat) :
    exceptOk (withdraw c ctx s amount) = false := by
  unfold withdraw
  split
  · rfl
  next r hrec =>
  split
  next => rfl
  next hs =>
  split
  next => rfl
  next h1 =>
  split
  next => rfl
  next h2 =>
  split
  next => rfl
  next h3 =>
  rw [not_not] at h1 h2 h3
  unfold sysTransfer
  rw [decide_eq_false (signer_seeds_mismatch ctx r h1 h2 h3)]
  rfl

/-- C2: the spec scenario says create(Alice), deposit(Alice, 100),
withdraw(Alice, 40) all succeed, leaving the vault at 60. On the code,
create and deposit succeed (vault 100, Alice 900), but the withdraw of 40
is rejected with `Unauthorized` because the program's signer seed chain
does not reproduce the vault's controlling key. -/
theorem C2_scenario_withdraw_rejected :
    exceptOk (create chain0 (initCtxOf alice) true) = true ∧
    chain2.lamports (vaultAddr alice) = 100 ∧
    chain2.lamports alice = 900 ∧
    withdraw chain2 (wdCtxOf alice) true 40 = .error .Unauthorized :=
  ⟨rfl, rfl, rfl, rfl⟩

/-- C3: the spec says a withdraw exceeding the vault balance fails with
`InsufficientFunds` and leaves the balance unchanged. On the code the
balance check is never reached: with the vault holding 100, a withdraw of
200 fails with `Unauthorized` (the broken signer seed chain), not
`InsufficientFunds`; the balance is unchanged only because every withdraw
fails. -/
theorem C3_overdraw_error_mismatch :
    chain2.lamports (vaultAddr alice) = 100 ∧
    withdraw chain2 (wdCtxOf alice) true 200 = .error .Unauthorized ∧
    (chainAfter chain2 (withdraw chain2 (wdCtxOf alice) true 200)).lamports
      (vaultAddr alice) = 100 :=
  ⟨rfl, rfl, rfl⟩

/-- C4: after a successful create for an owner, a second create call with
the same accounts fails with `AlreadyExists` (it does not no-op), and the
chain — records and balances — is exactly as it was before the failed
second call. -/
theorem C4_create_twice_fails (c : Chain) (ctx : InitializeContext) (s : Bool)
    (c' : Chain) (h : create c ctx s = .ok c') :
    create c' ctx true = .error .AlreadyExists ∧
    chainAfter c' (create c' ctx true) = c' := by
  obtain ⟨hrec, hst, -, -, -, -⟩ := create_ok_record c ctx s c' h
  have hst' : ctx.state = (findProgramAddress [stateTag, ctx.owner]).1 := hst
  have h2 : create c' ctx true = .error .AlreadyExists := by
    unfold create
    split
    next hn => exact absurd rfl hn
    next =>
    split
    next hne => exact absurd hst' hne
    next =>
    split
    next => rfl
    next hn => exact absurd (by rw [hrec]; rfl) hn
  exact ⟨h2, by rw [h2]; rfl⟩

/-- Witness for C4 at the concrete Alice scenario. -/
theorem C4_create_twice_fails_w :
    create chain0 (initCtxOf alice) true = .ok chain1 ∧
    create chain1 (initCtxOf alice) true = .error .AlreadyExists :=
  ⟨rfl, (C4_create_twice_fails chain0 (initCtxOf alice) true chain1 rfl).1⟩

/-- C5: a successful create stores all three bumps, and the record's
bumps reproduce the creation-time addresses along the dependency chain:
re-deriving the state address from the owner with the stored
`state_bump`, the authority address from the state address with the
stored `auth_bump`, and the vault address from the authority address with
the stored `vault_bump` gives back exactly the supplied (canonical)
addresses. -/
theorem C5_create_bump_chain (c : Chain) (ctx : InitializeContext) (s : Bool)
    (c' : Chain) (h : create c ctx s = .ok c') :
    ∃ r : Vault, c'.records ctx.state = some r ∧
      r.owner = ctx.owner ∧
      r.state_bump = canonicalBump ∧ r.auth_bump = canonicalBump ∧
      r.vault_bump = canonicalBump ∧
      createProgramAddress [stateTag, ctx.owner, [r.state_bump]] = ctx.state ∧
      createProgramAddress [authTag, ctx.state, [r.auth_bump]] = ctx.auth ∧
      createProgramAddress [vaultTag, ctx.auth, [r.vault_bump]] = ctx.vault := by
  obtain ⟨hrec, hst, hau, hva, -, -⟩ := create_ok_record c ctx s c' h
  refine ⟨_, hrec, rfl, rfl, rfl, rfl, hst.symm, ?_, ?_⟩
  · rw [hst]
    exact hau.symm
  · rw [hau]
    exact hva.symm

/-- Witness for C5 at the concrete Alice scenario. -/
theorem C5_create_bump_chain_w :
    create chain0 (initCtxOf alice) true = .ok chain1 ∧
    (∃ r : Vault, chain1.records (initCtxOf alice).state = some r ∧
      r.owner = (initCtxOf alice).owner ∧
      r.state_bump = canonicalBump ∧ r.auth_bump = canonicalBump ∧
      r.vault_bump = canonicalBump ∧
      createProgramAddress [stateTag, (initCtxOf alice).owner, [r.state_bump]]
        = (initCtxOf alice).state ∧
      createProgramAddress [authTag, (initCtxOf alice).state, [r.auth_bump]]
        = (initCtxOf alice).auth ∧
      createProgramAddress [vaultTag, (initCtxOf alice).auth, [r.vault_bump]]
        = (initCtxOf alice).vault) :=
  ⟨rfl, C5_create_bump_chain chain0 (initCtxOf alice) true chain1 rfl⟩

theorem sysTransfer_zero_frame (c : Chain) (x y : Pubkey) (b : Bool)
    (c' : Chain) (h : sysTransfer c x y 0 b = .ok c') :
    (∀ a, c'.lamports a = c.lamports a) ∧ (∀ a, c'.records a = c.records a) := by
  unfold sysTransfer at h
  split at h
  next => exact absurd h (by simp)
  next =>
  split at h
  next => exact absurd h (by simp)
  next =>
  injection h with hc
  subst hc
  refine ⟨fun a => ?_, fun a => rfl⟩
  simp only [setBal, Nat.sub_zero, Nat.add_zero]
  split
  next ha =>
    subst ha
    split
    next hx => rw [hx]
    next => rfl
  next =>
    split
    next hx => rw [hx]
    next => rfl

/-- C6 counterexample: the claim says deposit(owner, 0) fails with
`InvalidAmount`. On the code there is no zero check at all: with Alice's
record created, a zero deposit succeeds and moves nothing. -/
theorem C6_deposit_zero_cx :
    exceptOk (deposit chain1 (depCtxOf alice) true 0) = true ∧
    (chainAfter chain1 (deposit chain1 (depCtxOf alice) true 0)).lamports alice
      = 1000 ∧
    (chainAfter chain1 (deposit chain1 (depCtxOf alice) true 0)).lamports
      (vaultAddr alice) = 0 :=
  ⟨rfl, rfl, rfl⟩

/-- C6 amended: for every owner with a created record, deposit(owner, 0)
succeeds as a no-op — every balance and every record is unchanged — it is
not rejected with `InvalidAmount`. -/
theorem C6_deposit_zero_noop (c : Chain) (ctx : DepositContext) (s : Bool)
    (c' : Chain) (h : deposit c ctx s 0 = .ok c') :
    (∀ a, c'.lamports a = c.lamports a) ∧ (∀ a, c'.records a = c.records a) := by
  unfold deposit at h
  split at h
  next => exact absurd h (by simp)
  next r hrec =>
  split at h
  next => exact absurd h (by simp)
  next =>
  split at h
  next => exact absurd h (by simp)
  next =>
  split at h
  next => exact absurd h (by simp)
  next =>
  split at h
  next => exact absurd h (by simp)
  next =>
  exact sysTransfer_zero_frame c ctx.owner ctx.vault true c' h

/-- Witness for C6's amended theorem at the concrete Alice scenario. -/
theorem C6_deposit_zero_noop_w :
    (chainAfter chain1 (deposit chain1 (depCtxOf alice) true 0)).lamports alice
      = chain1.lamports alice :=
  (C6_deposit_zero_noop chain1 (depCtxOf alice) true
    (chainAfter chain1 (deposit chain1 (depCtxOf alice) true 0)) rfl).1 alice

/-- C7: a deposit for an owner with no record at the supplied state
address fails with `NotFound` for any amount, and the chain — every
balance and every record — is unchanged. -/
theorem C7_deposit_before_create (c : Chain) (ctx : DepositContext) (s : Bool)
    (amount : Nat) (h : c.records ctx.state = none) :
    deposit c ctx s amount = .error .NotFound ∧
    chainAfter c (deposit c ctx s amount) = c := by
  have hd : deposit c ctx s amount = .error .NotFound := by
    unfold deposit
    rw [h]
  exact ⟨hd, by rw [hd]; rfl⟩

/-- Witness for C7: deposit(Bob-style fresh chain, 50) before create. -/
theorem C7_deposit_before_create_w :
    deposit chain0 (depCtxOf alice) true 50 = .error .NotFound :=
  (C7_deposit_before_create chain0 (depCtxOf alice) true 50 rfl).1

/-- C8: neither deposit nor withdraw — successful or failed — changes any
stored record: the owner and the three bumps remain exactly the values
stored at creation (and the `Vault` record has no field in which an
amount could be cached). -/
theorem C8_record_immutable (c : Chain) (dctx : DepositContext)
    (wctx : WithdrawContext) (s s2 : Bool) (amt amt2 : Nat) (a : Pubkey) :
    (chainAfter c (deposit c dctx s amt)).records a = c.records a ∧
    (chainAfter c (withdraw c wctx s2 amt2)).records a = c.records a := by
  constructor
  · unfold deposit
    split
    next => rfl
    next r hrec =>
    split
    next => rfl
    next =>
    split
    next => rfl
    next =>
    split
    next => rfl
    next =>
    split
    next => rfl
    next => exact sysTransfer_records c dctx.owner dctx.vault amt true a
  · unfold withdraw
    split
    next => rfl
    next r hrec =>
    split
    next => rfl
    next =>
    split
    next => rfl
    next =>
    split
    next => rfl
    next =>
    split
    next => rfl
    next => exact sysTransfer_records c wctx.vault wctx.owner amt2 _ a

/-- A successful deposit forces the supplied state address to re-derive
from the supplied owner with the record's stored state bump. Stated on
the post-lookup body of `deposit` so it can be applied by definitional
unfolding once the record is known. -/
theorem deposit_body_ok_state (c : Chain) (d : DepositContext) (s : Bool)
    (amt : Nat) (c' : Chain) (r : Vault)
    (h : (if ¬ s = true then (Except.error Err.Unauthorized : Except Err Chain)
          else if d.state ≠ createProgramAddress [stateTag, d.owner, [r.state_bump]] then
            .error .InvalidAddress
          else if d.auth ≠ createProgramAddress [authTag, d.state, [r.auth_bump]] then
            .error .InvalidAddress
          else if d.vault ≠ createProgramAddress [vaultTag, d.auth, [r.vault_bump]] then
            .error .InvalidAddress
          else sysTransfer c d.owner d.vault amt true) = .ok c') :
    d.state = createProgramAddress [stateTag, d.owner, [r.state_bump]] := by
  split at h
  next => exact absurd h (by simp)
  next =>
  split at h
  next => exact absurd h (by simp)
  next hne => exact not_not.mp hne

/-- C9: derivation of the state address is deterministic — create places
the record at `(findProgramAddress ["state", O]).1`, and any successful
deposit for the same owner against the created record is forced to use
the very same state address. -/
theorem C9_state_address_deterministic (O : Pubkey) (c : Chain)
    (ictx : InitializeContext) (s : Bool) (c' : Chain) (d : DepositContext)
    (c2 : Chain) (s2 : Bool) (amt : Nat) (c2' : Chain)
    (ho : ictx.owner = O) (h : create c ictx s = .ok c')
    (hdo : d.owner = O)
    (hrec : c2.records d.state = c'.records ictx.state)
    (hd : deposit c2 d s2 amt = .ok c2') :
    ictx.state = (findProgramAddress [stateTag, O]).1 ∧ d.state = ictx.state := by
  obtain ⟨hsrec, hst, -, -, -, -⟩ := create_ok_record c ictx s c' h
  have h1 : ictx.state = (findProgramAddress [stateTag, O]).1 := ho ▸ hst
  refine ⟨h1, ?_⟩
  unfold deposit at hd
  rw [hrec, hsrec] at hd
  have haddr := deposit_body_ok_state c2 d s2 amt c2'
    ⟨ictx.owner, canonicalBump, canonicalBump, canonicalBump⟩ hd
  have haddr2 : d.state = (findProgramAddress [stateTag, O]).1 := hdo ▸ haddr
  exact haddr2.trans h1.symm

/-- Witness for C9 at the concrete Alice scenario. -/
theorem C9_state_address_deterministic_w :
    (initCtxOf alice).state = (findProgramAddress [stateTag, alice]).1 ∧
    (depCtxOf alice).state = (initCtxOf alice).state :=
  C9_state_address_deterministic alice chain0 (initCtxOf alice) true chain1
    (depCtxOf alice) chain1 true 100 chain2 rfl rfl rfl rfl rfl

theorem recBumpsEq_refl (x : Option Vault) : recBumpsEq x x := by
  cases x <;> simp [recBumpsEq]

theorem sysTransfer_congr (c1 c2 : Chain) (x y : Pubkey) (amt : Nat) (b : Bool)
    (hl : c1.lamports = c2.lamports) :
    agreeE (sysTransfer c1 x y amt b) (sysTransfer c2 x y amt b) := by
  unfold sysTransfer
  rw [hl]
  split
  next => rfl
  next =>
  split
  next => rfl
  next => intro k; rfl

theorem deposit_body_congr (c1 c2 : Chain) (d : DepositContext) (s : Bool)
    (amt : Nat) (r1 r2 : Vault) (hl : c1.lamports = c2.lamports)
    (hsb : r1.state_bump = r2.state_bump) (hab : r1.auth_bump = r2.auth_bump)
    (hvb : r1.vault_bump = r2.vault_bump) :
    agreeE
      (if ¬ s = true then (Except.error Err.Unauthorized : Except Err Chain)
       else if d.state ≠ createProgramAddress [stateTag, d.owner, [r1.state_bump]] then
         .error .InvalidAddress
       else if d.auth ≠ createProgramAddress [authTag, d.state, [r1.auth_bump]] then
         .error .InvalidAddress
       else if d.vault ≠ createProgramAddress [vaultTag, d.auth, [r1.vault_bump]] then
         .error .InvalidAddress
       else sysTransfer c1 d.owner d.vault amt true)
      (if ¬ s = true then (Except.error Err.Unauthorized : Except Err Chain)
       else if d.state ≠ createProgramAddress [stateTag, d.owner, [r2.state_bump]] then
         .error .InvalidAddress
       else if d.auth ≠ createProgramAddress [authTag, d.state, [r2.auth_bump]] then
         .error .InvalidAddress
       else if d.vault ≠ createProgramAddress [vaultTag, d.auth, [r2.vault_bump]] then
         .error .InvalidAddress
       else sysTransfer c2 d.owner d.vault amt true) := by
  rw [← hsb, ← hab, ← hvb]
  split
  next => rfl
  next =>
  split
  next => rfl
  next =>
  split
  next => rfl
  next =>
  split
  next => rfl
  next => exact sysTransfer_congr c1 c2 d.owner d.vault amt true hl

theorem withdraw_body_congr (c1 c2 : Chain) (w : WithdrawContext) (s : Bool)
    (amt : Nat) (r1 r2 : Vault) (hl : c1.lamports = c2.lamports)
    (hsb : r1.state_bump = r2.state_bump) (hab : r1.auth_bump = r2.auth_bump)
    (hvb : r1.vault_bump = r2.vault_bump) :
    agreeE
      (if ¬ s = true then (Except.error Err.Unauthorized : Except Err Chain)
       else if w.state ≠ createProgramAddress [stateTag, w.owner, [r1.state_bump]] then
         .error .InvalidAddress
       else if w.auth ≠ createProgramAddress [authTag, w.state, [r1.auth_bump]] then
         .error .InvalidAddress
       else if w.vault ≠ createProgramAddress [vaultTag, w.auth, [r1.vault_bump]] then
         .error .InvalidAddress
       else sysTransfer c1 w.vault w.owner amt
         (decide (createProgramAddress [vaultTag, w.state, [r1.auth_bump]] = w.vault)))
      (if ¬ s = true then (Except.error Err.Unauthorized : Except Err Chain)
       else if w.state ≠ createProgramAddress [stateTag, w.owner, [r2.state_bump]] then
         .error .InvalidAddress
       else if w.auth ≠ createProgramAddress [authTag, w.state, [r2.auth_bump]] then
         .error .InvalidAddress
       else if w.vault ≠ createProgramAddress [vaultTag, w.auth, [r2.vault_bump]] then
         .error .InvalidAddress
       else sysTransfer c2 w.vault w.owner amt
         (decide (createProgramAddress [vaultTag, w.state, [r2.auth_bump]] = w.vault))) := by
  rw [← hsb, ← hab, ← hvb]
  split
  next => rfl
  next =>
  split
  next => rfl
  next =>
  split
  next => rfl
  next =>
  split
  next => rfl
  next => exact sysTransfer_congr c1 c2 w.vault w.owner amt _ hl

theorem deposit_congr (c1 c2 : Chain) (d : DepositContext) (s : Bool)
    (amt : Nat) (hl : c1.lamports = c2.lamports)
    (hr : recBumpsEq (c1.records d.state) (c2.records d.state)) :
    agreeE (deposit c1 d s amt) (deposit c2 d s amt) := by
  unfold deposit
  cases h1 : c1.records d.state with
  | none =>
    cases h2 : c2.records d.state with
    | none => rfl
    | some r2 =>
      rw [h1, h2] at hr
      exact absurd hr (by simp [recBumpsEq])
  | some r1 =>
    cases h2 : c2.records d.state with
    | none =>
      rw [h1, h2] at hr
      exact absurd hr (by simp [recBumpsEq])
    | some r2 =>
      rw [h1, h2] at hr
      simp only [recBumpsEq] at hr
      obtain ⟨hsb, hab, hvb⟩ := hr
      exact deposit_body_congr c1 c2 d s amt r1 r2 hl hsb hab hvb

theorem withdraw_congr (c1 c2 : Chain) (w : WithdrawContext) (s : Bool)
    (amt : Nat) (hl : c1.lamports = c2.lamports)
    (hr : recBumpsEq (c1.records w.state) (c2.records w.state)) :
    agreeE (withdraw c1 w s amt) (withdraw c2 w s amt) := by
  unfold withdraw
  cases h1 : c1.records w.state with
  | none =>
    cases h2 : c2.records w.state with
    | none => rfl
    | some r2 =>
      rw [h1, h2] at hr
      exact absurd hr (by simp [recBumpsEq])
  | some r1 =>
    cases h2 : c2.records w.state with
    | none =>
      rw [h1, h2] at hr
      exact absurd hr (by simp [recBumpsEq])
    | some r2 =>
      rw [h1, h2] at hr
      simp only [recBumpsEq] at hr
      obtain ⟨hsb, hab, hvb⟩ := hr
      exact withdraw_body_congr c1 c2 w s amt r1 r2 hl hsb hab hvb

/-- C10: neither deposit nor withdraw reads the stored owner field. On two
chains identical except that the record at one state address differs only
in its owner field, deposit and withdraw behave identically — the same
error, or both succeed with identical balances — because the caller is
authenticated solely by the seed checks against the stored bumps. -/
theorem C10_owner_field_never_read (lam : Pubkey → Nat)
    (recs : Pubkey → Option Vault) (A : Pubkey) (r1 r2 : Vault)
    (d : DepositContext) (w : WithdrawContext) (s s2 : Bool) (amt amt2 : Nat)
    (hsb : r1.state_bump = r2.state_bump) (hab : r1.auth_bump = r2.auth_bump)
    (hvb : r1.vault_bump = r2.vault_bump) :
    agreeE (deposit ⟨lam, setRec recs A (some r1)⟩ d s amt)
           (deposit ⟨lam, setRec recs A (some r2)⟩ d s amt) ∧
    agreeE (withdraw ⟨lam, setRec recs A (some r1)⟩ w s2 amt2)
           (withdraw ⟨lam, setRec recs A (some r2)⟩ w s2 amt2) := by
  constructor
  · apply deposit_congr
    · rfl
    · simp only [setRec]
      split
      next =>
        simp only [recBumpsEq]
        exact ⟨hsb, hab, hvb⟩
      next => exact recBumpsEq_refl _
  · apply withdraw_congr
    · rfl
    · simp only [setRec]
      split
      next =>
        simp only [recBumpsEq]
        exact ⟨hsb, hab, hvb⟩
      next => exact recBumpsEq_refl _

/-- Witness for C10: two records for Alice's state address that differ
only in the owner field. -/
theorem C10_owner_field_never_read_w :
    agreeE
      (deposit ⟨chain0.lamports, setRec (fun _ => none) (stateAddr alice)
        (some ⟨alice, canonicalBump, canonicalBump, canonicalBump⟩)⟩
        (depCtxOf alice) true 100)
      (deposit ⟨chain0.lamports, setRec (fun _ => none) (stateAddr alice)
        (some ⟨keyAddr 9, canonicalBump, canonicalBump, canonicalBump⟩)⟩
        (depCtxOf alice) true 100) ∧
    agreeE
      (withdraw ⟨chain0.lamports, setRec (fun _ => none) (stateAddr alice)
        (some ⟨alice, canonicalBump, canonicalBump, canonicalBump⟩)⟩
        (wdCtxOf alice) true 40)
      (withdraw ⟨chain0.lamports, setRec (fun _ => none) (stateAddr alice)
        (some ⟨keyAddr 9, canonicalBump, canonicalBump, canonicalBump⟩)⟩
        (wdCtxOf alice) true 40) :=
  C10_owner_field_never_read chain0.lamports (fun _ => none) (stateAddr alice)
    ⟨alice, canonicalBump, canonicalBump, canonicalBump⟩
    ⟨keyAddr 9, canonicalBump, canonicalBump, canonicalBump⟩
    (depCtxOf alice) (wdCtxOf alice) true true 100 40 rfl rfl rfl

end VaultWorkshop
